import Mathlib

/-!
Verification development for the `yarik` mini-games repository.

The Python sources are shallowly embedded: `pygame.Vector2` becomes `Vec2`
over `ℚ` (floats are modelled as exact rationals), `yarik.utils.Rect2`
becomes `Rect2`, the stateful `Session`/`Game` objects become pure state
records with explicit step functions returning `Option` (where `none`
models the `StopIteration` completion signal), and `random.Random` becomes
a stream of unit samples with an index.
-/

set_option autoImplicit false

/-- Model of `pygame.Vector2`: a 2-d vector of exact rationals. -/
structure Vec2 where
  x : ℚ
  y : ℚ
deriving DecidableEq, Repr

instance : Add Vec2 := ⟨fun a b => ⟨a.x + b.x, a.y + b.y⟩⟩

instance : Sub Vec2 := ⟨fun a b => ⟨a.x - b.x, a.y - b.y⟩⟩

instance : Neg Vec2 := ⟨fun a => ⟨-a.x, -a.y⟩⟩

instance : HMul ℚ Vec2 Vec2 := ⟨fun k v => ⟨k * v.x, k * v.y⟩⟩

instance : HDiv Vec2 ℚ Vec2 := ⟨fun v k => ⟨v.x / k, v.y / k⟩⟩

@[simp] theorem Vec2.add_x (a b : Vec2) : (a + b).x = a.x + b.x := rfl

@[simp] theorem Vec2.add_y (a b : Vec2) : (a + b).y = a.y + b.y := rfl

@[simp] theorem Vec2.sub_x (a b : Vec2) : (a - b).x = a.x - b.x := rfl

@[simp] theorem Vec2.sub_y (a b : Vec2) : (a - b).y = a.y - b.y := rfl

@[simp] theorem Vec2.neg_x (a : Vec2) : (-a).x = -a.x := rfl

@[simp] theorem Vec2.neg_y (a : Vec2) : (-a).y = -a.y := rfl

@[simp] theorem Vec2.smul_x (k : ℚ) (a : Vec2) : (k * a).x = k * a.x := rfl

@[simp] theorem Vec2.smul_y (k : ℚ) (a : Vec2) : (k * a).y = k * a.y := rfl

@[simp] theorem Vec2.div_x (a : Vec2) (k : ℚ) : (a / k).x = a.x / k := rfl

@[simp] theorem Vec2.div_y (a : Vec2) (k : ℚ) : (a / k).y = a.y / k := rfl

@[ext] theorem Vec2.ext {a b : Vec2} (hx : a.x = b.x) (hy : a.y = b.y) : a = b := by
  cases a; cases b; simp_all

/-- Model of `yarik.utils.Rect2` ("Real-valued Rect"): origin `xy` and size `wh`. -/
structure Rect2 where
  xy : Vec2
  wh : Vec2
deriving DecidableEq, Repr

/-- `Rect2.left` property: `xy.x`. -/
def Rect2.left (r : Rect2) : ℚ := r.xy.x

/-- `Rect2.top` property: `xy.y`. -/
def Rect2.top (r : Rect2) : ℚ := r.xy.y

/-- `Rect2.right` property: `xy.x + wh.x`. -/
def Rect2.right (r : Rect2) : ℚ := r.xy.x + r.wh.x

/-- `Rect2.bottom` property: `xy.y + wh.y`. -/
def Rect2.bottom (r : Rect2) : ℚ := r.xy.y + r.wh.y

/-- `Rect2.center` property: `xy + 0.5 * wh`. -/
def Rect2.center (r : Rect2) : Vec2 := r.xy + (1 / 2 : ℚ) * r.wh

/-- `yarik.utils.expand` on a `Rect2` argument and a per-axis vector delta:
`Rect2(rect.xy - value, rect.wh + 2 * value)`. -/
def expand (rect : Rect2) (value : Vec2) : Rect2 :=
  ⟨rect.xy - value, rect.wh + (2 : ℚ) * value⟩

/-- `yarik.utils.expand` when the first argument is a bare point:
the source wraps it as `Rect2(rect, (0, 0))` before expanding. -/
def expandPoint (p : Vec2) (value : Vec2) : Rect2 :=
  expand ⟨p, ⟨0, 0⟩⟩ value

/-- `yarik.utils.expand` when the delta is a scalar: the source turns it
into `Vector2(value, value)` before expanding. -/
def expandScalar (rect : Rect2) (value : ℚ) : Rect2 :=
  expand rect ⟨value, value⟩

/-- `yarik.utils.clamp`: clamp `pos` inside `rect`, each coordinate
independently, via `max(rect.left, min(pos.x, rect.right))` and the same
for y with top/bottom. -/
def clamp (pos : Vec2) (rect : Rect2) : Vec2 :=
  ⟨max rect.left (min pos.x rect.right),
   max rect.top (min pos.y rect.bottom)⟩

/-- Model of Python's `random.Random`: an infinite stream of unit samples
(the successive values of `random()`) together with the index of the next
sample to be drawn. -/
structure RandomState where
  seq : ℕ → ℚ
  idx : ℕ

/-- Drawing one unit sample from the generator (`random()`). -/
def RandomState.random (r : RandomState) : ℚ × RandomState :=
  (r.seq r.idx, ⟨r.seq, r.idx + 1⟩)

/-- Python's `Random.uniform(a, b)`: `a + (b - a) * random()`. -/
def RandomState.uniform (r : RandomState) (a b : ℚ) : ℚ × RandomState :=
  let (u, r1) := r.random
  (a + (b - a) * u, r1)

/-- `yarik.utils.random_uniform`: sample x uniformly in
`[rect.left, rect.right]` and y uniformly in `[rect.top, rect.bottom]`. -/
def random_uniform (r : RandomState) (rect : Rect2) : Vec2 × RandomState :=
  let (x, r1) := r.uniform rect.left rect.right
  let (y, r2) := r1.uniform rect.top rect.bottom
  (⟨x, y⟩, r2)

/-- A generator stream whose samples are all in the unit interval `[0, 1)`,
as Python's `random()` guarantees. -/
def UnitStream (seq : ℕ → ℚ) : Prop :=
  ∀ n, 0 ≤ seq n ∧ seq n < 1

/-- Free model of a `pygame.Surface`: a raw loaded bitmap, or the result of
`pygame.transform.scale` applied to a surface at a given size. Distinct
constructor applications model distinct surface objects. -/
inductive Surface where
  | raw : ℕ → Surface
  | scaledFrom : Surface → Vec2 → Surface
deriving DecidableEq, Repr

/-- Model of `pygame.transform.scale(image, size)`: allocates a fresh
scaled surface. -/
def transformScale (image : Surface) (size : Vec2) : Surface :=
  Surface.scaledFrom image size

/-- `yarik.image.ScaledCache`: a scaled surface tagged with the size it was
produced for. -/
structure ScaledCache where
  image : Surface
  size : Vec2
deriving DecidableEq, Repr

/-- `yarik.image.Image`: the owned original surface and the one-slot cache. -/
structure Image where
  image : Surface
  scaled : Option ScaledCache
deriving DecidableEq, Repr

/-- `yarik.image.Image.scale`, embedded as a state transition. The returned
triple is (returned surface, image state after the call, whether this call
regenerated the scaled surface). The source first invalidates the cache when
its tagged size differs from `size` (exact equality test), then regenerates
when the cache slot is empty, then returns the cached surface. -/
def Image.scale (im : Image) (size : Vec2) : Surface × Image × Bool :=
  let im1 : Image :=
    match im.scaled with
    | some c => if c.size ≠ size then ⟨im.image, none⟩ else im
    | none => im
  match im1.scaled with
  | some c => (c.image, im1, false)
  | none =>
    let s := transformScale im1.image size
    (s, ⟨im1.image, some ⟨s, size⟩⟩, true)

/-- The pressed-key snapshot read by `pygame.key.get_pressed()`, restricted
to the keys the sessions consult: arrows and WASD. -/
structure Keys where
  up : Bool
  down : Bool
  left : Bool
  right : Bool
  w : Bool
  a : Bool
  s : Bool
  d : Bool
deriving DecidableEq, Repr

/-- One frame's inputs to a session step: the pressed keys and the elapsed
time `dt` carried by the `Context`. -/
structure Frame where
  keys : Keys
  dt : ℚ
deriving DecidableEq, Repr

/-- The directional-movement block shared verbatim by
`collecting.Session.step` and `mouse.Session.step` (and `__main__`):
up/W, down/S, left/A, right/D each add or subtract `speed * dt` on its
axis, independently and unnormalized. -/
def movePlayer (keys : Keys) (pos : Vec2) (speed dt : ℚ) : Vec2 :=
  let y1 := if keys.up || keys.w then pos.y - speed * dt else pos.y
  let y2 := if keys.down || keys.s then y1 + speed * dt else y1
  let x1 := if keys.left || keys.a then pos.x - speed * dt else pos.x
  let x2 := if keys.right || keys.d then x1 + speed * dt else x1
  ⟨x2, y2⟩

/-- `collecting.Item`: position and radius (the rendering-only `image`
field is omitted; it never affects session state). -/
structure Item where
  pos : Vec2
  radius : ℚ
deriving DecidableEq, Repr

/-- `collecting.Player`: an `Item` with a movement speed. -/
structure Player where
  pos : Vec2
  radius : ℚ
  speed : ℚ
deriving DecidableEq, Repr

/-- The collection test of `collecting.Session.step`:
`player.pos.distance_to(item.pos) < player.radius + item.radius`. Since
`distance_to` is the nonnegative Euclidean norm, `sqrt s < r` holds iff
`0 < r` and `s < r^2`; the test is embedded in that square-compared form to
stay inside `ℚ`. -/
def itemCollides (p : Player) (it : Item) : Bool :=
  decide (0 < p.radius + it.radius) &&
    decide ((p.pos.x - it.pos.x) ^ 2 + (p.pos.y - it.pos.y) ^ 2 <
      (p.radius + it.radius) ^ 2)

/-- The item-collection loop of `collecting.Session.step`: walk the item
list in order, dropping the collected ones and counting them; survivors
keep their relative order. Returns (number collected, surviving items). -/
def collectItems (p : Player) : List Item → ℕ × List Item
  | [] => (0, [])
  | it :: rest =>
    let nc := collectItems p rest
    if itemCollides p it then (nc.1 + 1, nc.2) else (nc.1, it :: nc.2)

/-- `collecting.Session` state: play-area rectangle, player, items, the
round-completion timeout and the score counter. -/
structure CSession where
  mapRect : Rect2
  player : Player
  items : List Item
  timeout : ℚ
  counter : ℕ
deriving DecidableEq, Repr

/-- `collecting.Session.step` (rendering omitted; it does not change
session state): move the player from the pressed keys, clamp it into the
map rect shrunk by the player radius, collect overlapping items into the
counter, and when no items remain count the timeout down, signalling
completion (`none`, the embedding of `raise StopIteration`) once it is no
longer positive. -/
def CSession.step (s : CSession) (f : Frame) : Option CSession :=
  let pos1 := movePlayer f.keys s.player.pos s.player.speed f.dt
  let pos2 := clamp pos1 (expandScalar s.mapRect (-s.player.radius))
  let player : Player := ⟨pos2, s.player.radius, s.player.speed⟩
  let nc := collectItems player s.items
  let counter := s.counter + nc.1
  if nc.2.length = 0 then
    if s.timeout > 0 then
      some ⟨s.mapRect, player, nc.2, s.timeout - f.dt, counter⟩
    else
      none
  else
    some ⟨s.mapRect, player, nc.2, s.timeout, counter⟩

/-- The item-placement loop of `collecting.Session.__init__`: each item
draws two unit samples for `random_uniform` inside the shrunk map rect and
one more for `rng.choices` (which picks the rendering-only image and is
therefore only tracked for its effect on the sample stream). -/
def mkItems (rect : Rect2) (radius : ℚ) : RandomState → ℕ → List Item × RandomState
  | r, 0 => ([], r)
  | r, Nat.succ k =>
    let pr := random_uniform r rect
    let r2 := (pr.2.random).2
    let rest := mkItems rect radius r2 k
    (⟨pr.1, radius⟩ :: rest.1, rest.2)

/-- `collecting.Session.__init__`: map rect at the origin, player of radius
1 and speed 10 at the map center, `numItems` items of radius 0.5 placed
uniformly inside the map rect shrunk by the item radius, timeout 1.0 and
counter 0. -/
def CSession.init (r : RandomState) (mapSize : Vec2) (numItems : ℕ) : CSession :=
  let mapRect : Rect2 := ⟨⟨0, 0⟩, mapSize⟩
  let player : Player := ⟨mapRect.center, 1, 10⟩
  let itemRadius : ℚ := 1 / 2
  ⟨mapRect, player,
   (mkItems (expandScalar mapRect (-itemRadius)) itemRadius r numItems).1,
   1, 0⟩

/-- `collecting.CollectingGame.step`: when there is no session construct a
fresh one with map size (42, 24) (and the default 16 items), then step it;
a `StopIteration` from the session is caught and clears the session slot,
so the game step itself always returns (it is a total function into the
game's session-slot state and never re-raises the signal). -/
def CollectingGame.step (r : RandomState) (session : Option CSession) (f : Frame) :
    Option CSession :=
  let s := session.getD (CSession.init r ⟨42, 24⟩ 16)
  s.step f

/-- `mouse.Player`: position, full sprite size and movement speed (the
rendering-only surface field is omitted). -/
structure MPlayer where
  pos : Vec2
  size : Vec2
  speed : ℚ
deriving DecidableEq, Repr

/-- `mouse.Item`: position and full sprite size. -/
structure MItem where
  pos : Vec2
  size : Vec2
deriving DecidableEq, Repr

/-- `mouse.Session` state. -/
structure MSession where
  viewport : Rect2
  player : MPlayer
  items : List MItem
  timeout : ℚ
  counter : ℕ
deriving DecidableEq, Repr

/-- The three ways a `mouse.Session.step` call can end: return normally
with the updated session, raise `StopIteration` (round completion), or
raise an uncaught `TypeError`. The last outcome is real: the collection
loop calls `pygame.Rect.colliderect` on the plain `utils.Rect2` values
returned by `utils.expand`, and that C method descriptor rejects a
non-`Rect` receiver, so the first loop iteration raises `TypeError`
before computing any comparison. -/
inductive MStepResult where
  | next : MSession → MStepResult
  | completed : MStepResult
  | crashed : MStepResult
deriving DecidableEq, Repr

/-- `mouse.Session.step` (rendering omitted): move the player, clamp it
into the viewport shrunk by half the player size, then run the collection
loop. With at least one item the loop's first
`Rect.colliderect(expand(player.pos, player.size / 3), ...)` call raises
`TypeError` (`expand` returns a `Rect2`, which `Rect.colliderect` rejects),
so the step crashes without collecting anything. With no items the loop is
skipped and the one-second completion timer counts down, raising
`StopIteration` (`completed`) once it is no longer positive. -/
def MSession.step (s : MSession) (f : Frame) : MStepResult :=
  let pos1 := movePlayer f.keys s.player.pos s.player.speed f.dt
  let pos2 := clamp pos1 (expand s.viewport (-(s.player.size / (2 : ℚ))))
  let player : MPlayer := ⟨pos2, s.player.size, s.player.speed⟩
  match s.items with
  | _ :: _ => MStepResult.crashed
  | [] =>
    if s.timeout > 0 then
      MStepResult.next ⟨s.viewport, player, [], s.timeout - f.dt, s.counter⟩
    else
      MStepResult.completed

/-- The item-placement loop of `mouse.Session.__init__`: `random_uniform`
inside the viewport shrunk by half the item size, plus the `rng.choices`
draw for the rendering-only image. -/
def mkMItems (rect : Rect2) (size : Vec2) : RandomState → ℕ → List MItem × RandomState
  | r, 0 => ([], r)
  | r, Nat.succ k =>
    let pr := random_uniform r rect
    let r2 := (pr.2.random).2
    let rest := mkMItems rect size r2 k
    (⟨pr.1, size⟩ :: rest.1, rest.2)

/-- `mouse.Session.__init__`: player of speed 300 at the viewport center,
`numItems` items placed uniformly inside the viewport shrunk by half the
item size, timeout 1.0 and counter 0. -/
def MSession.init (r : RandomState) (viewport : Rect2) (playerSize itemSize : Vec2)
    (numItems : ℕ) : MSession :=
  ⟨viewport, ⟨viewport.center, playerSize, 300⟩,
   (mkMItems (expand viewport (-(itemSize / (2 : ℚ)))) itemSize r numItems).1,
   1, 0⟩

/-- The two ways a `mouse.MouseGame.step` call can end: return normally
with the session-slot state, or let an exception other than
`StopIteration` propagate out (the `except StopIteration` handler catches
nothing else, and neither does the runner). -/
inductive MGameStep where
  | ok : Option MSession → MGameStep
  | raised : MGameStep
deriving DecidableEq, Repr

/-- `mouse.MouseGame.step`: when there is no session construct a fresh one
over the screen rectangle (default 16 items), then step it. Only a
`StopIteration` from the session is caught (clearing the session slot); the
`TypeError` from the session's collection loop is not, so it propagates out
of the game step. -/
def MouseGame.step (r : RandomState) (viewport : Rect2) (playerSize itemSize : Vec2)
    (session : Option MSession) (f : Frame) : MGameStep :=
  let s := session.getD (MSession.init r viewport playerSize itemSize 16)
  match s.step f with
  | MStepResult.next s1 => MGameStep.ok (some s1)
  | MStepResult.completed => MGameStep.ok none
  | MStepResult.crashed => MGameStep.raised

/-- Modelled from the spec: `utils.overlap(a_pos, b_pos, a_half_size, b_half_size)`
is called by the draft `__main__.play_game` but its definition is not under
`src/` (only this caller is); per spec section 4.2 it is the axis-aligned box
overlap test, true iff the center distance is at most the sum of the
half-extents on both axes. -/
def overlap (aPos bPos aHalf bHalf : Vec2) : Bool :=
  decide (|aPos.x - bPos.x| ≤ aHalf.x + bHalf.x) &&
    decide (|aPos.y - bPos.y| ≤ aHalf.y + bHalf.y)

/-- The collection test of `__main__.play_game`:
`utils.overlap(player_pos, item.pos, player_size / 3, item_size / 3)` —
half-extents are one third of each entity's full size. -/
def mainCollects (playerPos itemPos playerSize itemSize : Vec2) : Bool :=
  overlap playerPos itemPos (playerSize / (3 : ℚ)) (itemSize / (3 : ℚ))

/-- The KEYDOWN events the counting game reacts to: the ten digit keys,
minus, equals, and anything else. -/
inductive CKey where
  | digit : Fin 10 → CKey
  | minus : CKey
  | equals : CKey
  | other : CKey
deriving DecidableEq, Repr

/-- The per-KEYDOWN update of `number` in `counting.play_game`: a digit key
sets the number to that digit, minus replaces it by `max(0, number - 1)`,
equals by `min(10, number + 1)`; other keys leave it unchanged. -/
def applyKey (number : ℤ) : CKey → ℤ
  | CKey.digit n => (n : ℤ)
  | CKey.minus => max 0 (number - 1)
  | CKey.equals => min 10 (number + 1)
  | CKey.other => number

/-- Folding a batch of KEYDOWN events over `number`, in event order, as the
per-frame event loop of `counting.play_game` does. -/
def applyKeys (number : ℤ) (ks : List CKey) : ℤ :=
  ks.foldl applyKey number

/-- Python's `Random.randrange(a, b)` (used as `randrange(1, 10)` for the
initial number): a uniformly chosen integer in `[a, b)`, modelled as `a`
plus the sample's residue modulo the width. -/
def randrange (sample : ℕ) (a b : ℤ) : ℤ :=
  a + (sample : ℤ) % (b - a)

/-- The number of frames a session steps through before signalling
completion on a given frame list: `some m` when the step on frame `m`
raises `StopIteration` (steps `0..m-1` all returned), `none` when the
frame list is exhausted first. -/
def stepsToComplete : CSession → List Frame → Option ℕ
  | _, [] => none
  | s, f :: fs =>
    match s.step f with
    | none => some 0
    | some s1 => (stepsToComplete s1 fs).map (· + 1)

/-- Total elapsed `dt` over a list of frames. -/
def sumDt (fs : List Frame) : ℚ :=
  (fs.map Frame.dt).sum

/-- The collecting-game session states reachable from a given initial
session by repeatedly stepping (along any frames) without the session
having signalled completion. -/
inductive CReach (s0 : CSession) : CSession → Prop
  | refl : CReach s0 s0
  | tail (s : CSession) (f : Frame) (s1 : CSession) :
      CReach s0 s → CSession.step s f = some s1 → CReach s0 s1

/-- A concrete generator stream (every unit sample is 1/2) used for the
concrete instantiations below. -/
def constHalfStream : RandomState := ⟨fun _ => 1 / 2, 0⟩

/-- The pressed-key snapshot with no key pressed. -/
def keysNone : Keys := ⟨false, false, false, false, false, false, false, false⟩

/-- The pressed-key snapshot with only the right arrow pressed. -/
def keysRightOnly : Keys := ⟨false, false, false, true, false, false, false, false⟩

/-- A frame with no keys pressed and `dt = 0`. -/
def frameIdle0 : Frame := ⟨keysNone, 0⟩

/-- A frame with no keys pressed and `dt = 1`. -/
def frameIdle1 : Frame := ⟨keysNone, 1⟩

/-- A collecting-game session whose items were all collected and whose
completion timer has run out. -/
def csDone : CSession := ⟨⟨⟨0, 0⟩, ⟨42, 24⟩⟩, ⟨⟨21, 12⟩, 1, 10⟩, [], 0, 0⟩

/-- A collecting-game session whose items were all collected while its
completion timer still reads the full 1.0 second. -/
def csWait : CSession := ⟨⟨⟨0, 0⟩, ⟨42, 24⟩⟩, ⟨⟨21, 12⟩, 1, 10⟩, [], 1, 0⟩

/-- A mouse-game session still holding one item (the state every real
mouse session is in when its first step runs). -/
def msOneItem : MSession :=
  ⟨⟨⟨0, 0⟩, ⟨100, 100⟩⟩, ⟨⟨50, 50⟩, ⟨10, 10⟩, 300⟩, [⟨⟨50, 50⟩, ⟨4, 4⟩⟩], 1, 0⟩

/-- An image whose cache slot is empty. -/
def imFresh : Image := ⟨Surface.raw 0, none⟩

/-- The session state produced by one idle step of the one-item session
`CSession.init constHalfStream ⟨42, 24⟩ 1`: the single item was sitting at
the player's position (the map center) and is collected immediately. -/
def csAfterCollect : CSession := ⟨⟨⟨0, 0⟩, ⟨42, 24⟩⟩, ⟨⟨21, 12⟩, 1, 10⟩, [], 1, 1⟩

/-- Claim C5: for every rectangle `R` and delta `d` — per-axis vector or
scalar — `expand(R, d)` keeps the center of `R`, shifts the origin by `-d`,
and grows each dimension by `2*d`. -/
theorem expand_preserves_center (R : Rect2) (d : Vec2) (r : ℚ) :
    (expand R d).center = R.center ∧
    (expand R d).xy = R.xy - d ∧
    (expand R d).wh = R.wh + (2 : ℚ) * d ∧
    (expandScalar R r).center = R.center ∧
    (expandScalar R r).xy.x = R.xy.x - r ∧
    (expandScalar R r).xy.y = R.xy.y - r ∧
    (expandScalar R r).wh.x = R.wh.x + 2 * r ∧
    (expandScalar R r).wh.y = R.wh.y + 2 * r := by
  refine ⟨?_, rfl, rfl, ?_, rfl, rfl, ?_, ?_⟩
  · ext <;> simp [expand, Rect2.center] <;> ring
  · ext <;> simp [expandScalar, expand, Rect2.center] <;> ring
  · simp [expandScalar, expand]
  · simp [expandScalar, expand]

/-- Claim C6: for every point `p` and rectangle `R` with non-negative width
and height, `clamp(p, R)` lands inside (or on the boundary of) `R` on both
axes, and is the identity when `p` is already there. -/
theorem clamp_into_rect (p : Vec2) (R : Rect2)
    (hw : 0 ≤ R.wh.x) (hh : 0 ≤ R.wh.y) :
    R.left ≤ (clamp p R).x ∧ (clamp p R).x ≤ R.right ∧
    R.top ≤ (clamp p R).y ∧ (clamp p R).y ≤ R.bottom ∧
    ((R.left ≤ p.x ∧ p.x ≤ R.right ∧ R.top ≤ p.y ∧ p.y ≤ R.bottom) →
      clamp p R = p) := by
  have hlr : R.left ≤ R.right := by
    simp only [Rect2.left, Rect2.right]; linarith
  have htb : R.top ≤ R.bottom := by
    simp only [Rect2.top, Rect2.bottom]; linarith
  refine ⟨le_max_left _ _, max_le hlr (min_le_right _ _),
    le_max_left _ _, max_le htb (min_le_right _ _), ?_⟩
  rintro ⟨h1, h2, h3, h4⟩
  ext
  · simp [clamp, min_eq_left h2, max_eq_right h1]
  · simp [clamp, min_eq_left h4, max_eq_right h3]

/-- Claim C6 witness: a concrete instantiation at the unit square and the
interior point (1/2, 1/2). -/
theorem clamp_into_rect_witness :
    (0 ≤ (Rect2.mk ⟨0, 0⟩ ⟨1, 1⟩).wh.x ∧ 0 ≤ (Rect2.mk ⟨0, 0⟩ ⟨1, 1⟩).wh.y) ∧
    ((Rect2.mk ⟨0, 0⟩ ⟨1, 1⟩).left ≤ (clamp ⟨1/2, 1/2⟩ (Rect2.mk ⟨0, 0⟩ ⟨1, 1⟩)).x ∧
     (clamp ⟨1/2, 1/2⟩ (Rect2.mk ⟨0, 0⟩ ⟨1, 1⟩)).x ≤ (Rect2.mk ⟨0, 0⟩ ⟨1, 1⟩).right ∧
     (Rect2.mk ⟨0, 0⟩ ⟨1, 1⟩).top ≤ (clamp ⟨1/2, 1/2⟩ (Rect2.mk ⟨0, 0⟩ ⟨1, 1⟩)).y ∧
     (clamp ⟨1/2, 1/2⟩ (Rect2.mk ⟨0, 0⟩ ⟨1, 1⟩)).y ≤ (Rect2.mk ⟨0, 0⟩ ⟨1, 1⟩).bottom ∧
     (((Rect2.mk ⟨0, 0⟩ ⟨1, 1⟩).left ≤ (1/2 : ℚ) ∧ (1/2 : ℚ) ≤ (Rect2.mk ⟨0, 0⟩ ⟨1, 1⟩).right ∧
       (Rect2.mk ⟨0, 0⟩ ⟨1, 1⟩).top ≤ (1/2 : ℚ) ∧ (1/2 : ℚ) ≤ (Rect2.mk ⟨0, 0⟩ ⟨1, 1⟩).bottom) →
       clamp ⟨1/2, 1/2⟩ (Rect2.mk ⟨0, 0⟩ ⟨1, 1⟩) = ⟨1/2, 1/2⟩)) :=
  ⟨⟨by norm_num, by norm_num⟩,
   clamp_into_rect ⟨1/2, 1/2⟩ (Rect2.mk ⟨0, 0⟩ ⟨1, 1⟩) (by norm_num) (by norm_num)⟩

/-- Claim C9: when only the right movement key is pressed, a session step
moves the player's pre-clamp position by exactly `speed * dt` on the x axis
and leaves y unchanged; in particular from (100, 100) with speed 300 and
`dt = 0.1` the new position is (130, 100). -/
theorem movePlayer_right_only (ks : Keys) (pos : Vec2) (speed dt : ℚ)
    (hup : ks.up = false) (hdown : ks.down = false) (hleft : ks.left = false)
    (hright : ks.right = true) (hw : ks.w = false) (ha : ks.a = false)
    (hs : ks.s = false) (hd : ks.d = false) :
    movePlayer ks pos speed dt = ⟨pos.x + speed * dt, pos.y⟩ ∧
    movePlayer ks ⟨100, 100⟩ 300 (1 / 10) = ⟨130, 100⟩ := by
  constructor
  · simp [movePlayer, hup, hdown, hleft, hright, hw, ha, hs, hd]
  · simp [movePlayer, hup, hdown, hleft, hright, hw, ha, hs, hd]
    norm_num

/-- Claim C9 witness: the concrete right-arrow-only key snapshot. -/
theorem movePlayer_right_only_witness :
    (keysRightOnly.up = false ∧ keysRightOnly.right = true) ∧
    movePlayer keysRightOnly ⟨100, 100⟩ 300 (1 / 10) = ⟨130, 100⟩ :=
  ⟨⟨rfl, rfl⟩,
   (movePlayer_right_only keysRightOnly ⟨100, 100⟩ 300 (1 / 10)
     rfl rfl rfl rfl rfl rfl rfl rfl).2⟩

/-- Claim C7: with a seeded unit-sample stream and a rectangle of
non-negative width and height, `random_uniform` returns a point inside the
rectangle's bounds (inclusive), and two calls made from identical
random-source states return the identical point. -/
theorem random_uniform_in_rect (r r2 : RandomState) (R : Rect2)
    (hu : UnitStream r.seq) (hw : 0 ≤ R.wh.x) (hh : 0 ≤ R.wh.y)
    (hseq : r2.seq = r.seq) (hidx : r2.idx = r.idx) :
    R.left ≤ (random_uniform r R).1.x ∧ (random_uniform r R).1.x ≤ R.right ∧
    R.top ≤ (random_uniform r R).1.y ∧ (random_uniform r R).1.y ≤ R.bottom ∧
    random_uniform r2 R = random_uniform r R := by
  obtain ⟨hx0, hx1⟩ := hu r.idx
  obtain ⟨hy0, hy1⟩ := hu (r.idx + 1)
  have heq : r2 = r := by
    cases r2; cases r; simp_all
  have hxle : R.wh.x * r.seq r.idx ≤ R.wh.x :=
    mul_le_of_le_one_right hw hx1.le
  have hyle : R.wh.y * r.seq (r.idx + 1) ≤ R.wh.y :=
    mul_le_of_le_one_right hh hy1.le
  have hxge : 0 ≤ R.wh.x * r.seq r.idx := mul_nonneg hw hx0
  have hyge : 0 ≤ R.wh.y * r.seq (r.idx + 1) := mul_nonneg hh hy0
  refine ⟨?_, ?_, ?_, ?_, by rw [heq]⟩ <;>
    simp only [random_uniform, RandomState.uniform, RandomState.random,
      Rect2.left, Rect2.right, Rect2.top, Rect2.bottom] <;>
    nlinarith

/-- Claim C7 witness: the all-1/2 stream over the unit square. -/
theorem random_uniform_in_rect_witness :
    (UnitStream constHalfStream.seq ∧
     0 ≤ (Rect2.mk ⟨0, 0⟩ ⟨1, 1⟩).wh.x ∧ 0 ≤ (Rect2.mk ⟨0, 0⟩ ⟨1, 1⟩).wh.y) ∧
    ((Rect2.mk ⟨0, 0⟩ ⟨1, 1⟩).left ≤
        (random_uniform constHalfStream (Rect2.mk ⟨0, 0⟩ ⟨1, 1⟩)).1.x ∧
     (random_uniform constHalfStream (Rect2.mk ⟨0, 0⟩ ⟨1, 1⟩)).1.x ≤
        (Rect2.mk ⟨0, 0⟩ ⟨1, 1⟩).right ∧
     (Rect2.mk ⟨0, 0⟩ ⟨1, 1⟩).top ≤
        (random_uniform constHalfStream (Rect2.mk ⟨0, 0⟩ ⟨1, 1⟩)).1.y ∧
     (random_uniform constHalfStream (Rect2.mk ⟨0, 0⟩ ⟨1, 1⟩)).1.y ≤
        (Rect2.mk ⟨0, 0⟩ ⟨1, 1⟩).bottom ∧
     random_uniform constHalfStream (Rect2.mk ⟨0, 0⟩ ⟨1, 1⟩) =
        random_uniform constHalfStream (Rect2.mk ⟨0, 0⟩ ⟨1, 1⟩)) :=
  ⟨⟨fun _ => by constructor <;> norm_num [constHalfStream], by norm_num, by norm_num⟩,
   random_uniform_in_rect constHalfStream constHalfStream (Rect2.mk ⟨0, 0⟩ ⟨1, 1⟩)
     (fun _ => by constructor <;> norm_num [constHalfStream])
     (by norm_num) (by norm_num) rfl rfl⟩

/-- Claim C8: the counting game's number starts in [1, 9]
(`randrange(1, 10)`), every key press keeps it in [0, 10], a digit key sets
it directly, and the concrete scenarios hold: from 5 three `=` presses give
8, from 0 ten `-` presses stay at 0, and digit 9 always yields 9. -/
theorem counting_number_behavior (sample : ℕ) (n : ℤ) (k : CKey) (d : Fin 10)
    (h0 : 0 ≤ n) (h10 : n ≤ 10) :
    (1 ≤ randrange sample 1 10 ∧ randrange sample 1 10 ≤ 9) ∧
    (0 ≤ applyKey n k ∧ applyKey n k ≤ 10) ∧
    applyKey n (CKey.digit d) = (d : ℤ) ∧
    applyKeys 5 [CKey.equals, CKey.equals, CKey.equals] = 8 ∧
    applyKeys 0 (List.replicate 10 CKey.minus) = 0 ∧
    applyKey n (CKey.digit 9) = 9 := by
  refine ⟨⟨?_, ?_⟩, ?_, rfl, by decide, by decide, rfl⟩
  · have : 0 ≤ (sample : ℤ) % (10 - 1) := Int.emod_nonneg _ (by norm_num)
    simp only [randrange]
    omega
  · have : (sample : ℤ) % (10 - 1) < 9 := by
      have := Int.emod_lt_of_pos (sample : ℤ) (b := 10 - 1) (by norm_num)
      omega
    simp only [randrange]
    omega
  · cases k with
    | digit m =>
      have := m.isLt
      simp only [applyKey]
      omega
    | minus => simp only [applyKey]; omega
    | equals => simp only [applyKey]; omega
    | other => simp only [applyKey]; omega

/-- Claim C8 witness: sample 3, number 5, key `=`, digit 7. -/
theorem counting_number_behavior_witness :
    ((0 : ℤ) ≤ 5 ∧ (5 : ℤ) ≤ 10) ∧
    ((1 ≤ randrange 3 1 10 ∧ randrange 3 1 10 ≤ 9) ∧
     (0 ≤ applyKey 5 CKey.equals ∧ applyKey 5 CKey.equals ≤ 10) ∧
     applyKey 5 (CKey.digit 7) = ((7 : Fin 10) : ℤ) ∧
     applyKeys 5 [CKey.equals, CKey.equals, CKey.equals] = 8 ∧
     applyKeys 0 (List.replicate 10 CKey.minus) = 0 ∧
     applyKey 5 (CKey.digit 9) = 9) :=
  ⟨⟨by norm_num, by norm_num⟩,
   counting_number_behavior 3 5 CKey.equals 7 (by norm_num) (by norm_num)⟩

/-- Claim C1: the one-slot image cache. A call with the cached tagged size
returns the cached surface with no regeneration and no state change (so a
second call right after any call is such a hit); a call on an empty slot or
with a different size regenerates exactly once and stores the new surface
tagged with the requested size. -/
theorem image_scale_cache (im : Image) (c : ScaledCache) (size size2 : Vec2)
    (hcache : im.scaled = some c) (hne : size2 ≠ size) :
    (im.scale size).2.1.scale size = ((im.scale size).1, (im.scale size).2.1, false) ∧
    (im.scale size).2.1.scaled = some ⟨(im.scale size).1, size⟩ ∧
    (Image.mk im.image none).scale size =
      (transformScale im.image size,
       ⟨im.image, some ⟨transformScale im.image size, size⟩⟩, true) ∧
    (c.size ≠ size → im.scale size =
      (transformScale im.image size,
       ⟨im.image, some ⟨transformScale im.image size, size⟩⟩, true)) ∧
    (c.size = size → im.scale size = (c.image, im, false)) ∧
    (im.scale size).2.1.scale size2 =
      (transformScale im.image size2,
       ⟨im.image, some ⟨transformScale im.image size2, size2⟩⟩, true) := by
  have himg : ∀ (j : Image) (sz : Vec2), (j.scale sz).2.1.image = j.image := by
    intro j sz
    cases hj : j.scaled with
    | none => simp [Image.scale, hj]
    | some cc =>
      by_cases hsz : cc.size = sz
      · simp [Image.scale, hj, hsz]
      · simp [Image.scale, hj, hsz]
  have hstate : ∀ (j : Image) (sz : Vec2),
      (j.scale sz).2.1.scaled = some ⟨(j.scale sz).1, sz⟩ := by
    intro j sz
    cases hj : j.scaled with
    | none => simp [Image.scale, hj]
    | some cc =>
      obtain ⟨ci, cs⟩ := cc
      by_cases hsz : cs = sz
      · subst hsz; simp [Image.scale, hj]
      · simp [Image.scale, hj, hsz]
  have hhit : ∀ (j : Image) (cc : ScaledCache) (sz : Vec2),
      j.scaled = some cc → cc.size = sz → j.scale sz = (cc.image, j, false) := by
    intro j cc sz hj hsz
    simp [Image.scale, hj, hsz]
  refine ⟨?_, hstate im size, ?_, ?_, hhit im c size hcache, ?_⟩
  · exact hhit (im.scale size).2.1 ⟨(im.scale size).1, size⟩ size (hstate im size) rfl
  · simp [Image.scale, transformScale]
  · intro hcs
    simp [Image.scale, hcache, hcs, transformScale]
  · have h1 := hstate im size
    have h2 := himg im size
    have hmiss : ∀ (j : Image) (cc : ScaledCache) (sz : Vec2),
        j.scaled = some cc → cc.size ≠ sz →
        j.scale sz = (transformScale j.image sz,
          ⟨j.image, some ⟨transformScale j.image sz, sz⟩⟩, true) := by
      intro j cc sz hj hsz
      simp [Image.scale, hj, hsz]
    have := hmiss (im.scale size).2.1 ⟨(im.scale size).1, size⟩ size2 h1
      (by simpa using fun h => hne h.symm)
    rw [this, h2]

/-- Claim C1 witness: a fresh image scaled to (2, 2), then re-scaled to
(2, 2) (cache hit) and to (3, 3) (regeneration). -/
theorem image_scale_cache_witness :
    ((Image.mk (Surface.raw 0) (some ⟨Surface.scaledFrom (Surface.raw 0) ⟨2, 2⟩, ⟨2, 2⟩⟩)).scaled =
        some ⟨Surface.scaledFrom (Surface.raw 0) ⟨2, 2⟩, ⟨2, 2⟩⟩ ∧
      (⟨3, 3⟩ : Vec2) ≠ ⟨2, 2⟩) ∧
    ((Image.mk (Surface.raw 0)
        (some ⟨Surface.scaledFrom (Surface.raw 0) ⟨2, 2⟩, ⟨2, 2⟩⟩)).scale ⟨2, 2⟩).2.1.scale ⟨2, 2⟩ =
      (((Image.mk (Surface.raw 0)
        (some ⟨Surface.scaledFrom (Surface.raw 0) ⟨2, 2⟩, ⟨2, 2⟩⟩)).scale ⟨2, 2⟩).1,
       ((Image.mk (Surface.raw 0)
        (some ⟨Surface.scaledFrom (Surface.raw 0) ⟨2, 2⟩, ⟨2, 2⟩⟩)).scale ⟨2, 2⟩).2.1, false) :=
  ⟨⟨rfl, by decide⟩,
   (image_scale_cache
     (Image.mk (Surface.raw 0) (some ⟨Surface.scaledFrom (Surface.raw 0) ⟨2, 2⟩, ⟨2, 2⟩⟩))
     ⟨Surface.scaledFrom (Surface.raw 0) ⟨2, 2⟩, ⟨2, 2⟩⟩ ⟨2, 2⟩ ⟨3, 3⟩
     rfl (by decide)).1⟩

/-- Helper: a mouse-game session step with at least one item reaches the
collection loop, whose first `Rect.colliderect` call on `Rect2` arguments
raises `TypeError` — the step crashes. -/
theorem MSession.step_of_nonempty (s : MSession) (f : Frame) (h : s.items ≠ []) :
    MSession.step s f = MStepResult.crashed := by
  cases hi : s.items with
  | nil => exact absurd hi h
  | cons a l => simp [MSession.step, hi]

/-- Helper: the mouse item-placement loop produces exactly the requested
number of items. -/
theorem mkMItems_length (rect : Rect2) (sz : Vec2) : ∀ (n : ℕ) (r : RandomState),
    (mkMItems rect sz r n).1.length = n := by
  intro n
  induction n with
  | zero => intro r; simp [mkMItems]
  | succ k ih => intro r; simp [mkMItems, ih]

/-- Claim C2: the embedded code evaluated at the failing input. The
collecting game behaves as claimed (a session's `StopIteration` is caught
and clears the slot). But a freshly constructed mouse session holds 16
items, its first step crashes with the `TypeError` from the
`Rect.colliderect(Rect2, Rect2)` call, and that exception is not caught by
the `except StopIteration` handler, so it propagates out of
`MouseGame.step`: the mouse game terminates on the first step of its first
session instead of looping forever. -/
theorem mouse_game_first_step_raises :
    CSession.step csDone frameIdle0 = none ∧
    CollectingGame.step constHalfStream (some csDone) frameIdle0 = none ∧
    (MSession.init constHalfStream ⟨⟨0, 0⟩, ⟨100, 100⟩⟩ ⟨10, 10⟩ ⟨4, 4⟩ 16).items.length = 16 ∧
    MSession.step (MSession.init constHalfStream ⟨⟨0, 0⟩, ⟨100, 100⟩⟩ ⟨10, 10⟩ ⟨4, 4⟩ 16)
      frameIdle1 = MStepResult.crashed ∧
    MouseGame.step constHalfStream ⟨⟨0, 0⟩, ⟨100, 100⟩⟩ ⟨10, 10⟩ ⟨4, 4⟩ none frameIdle1 =
      MGameStep.raised := by
  have hc : CSession.step csDone frameIdle0 = none := by decide
  have hlen : (MSession.init constHalfStream ⟨⟨0, 0⟩, ⟨100, 100⟩⟩ ⟨10, 10⟩ ⟨4, 4⟩
      16).items.length = 16 := by
    simp [MSession.init, mkMItems_length]
  have hne : (MSession.init constHalfStream ⟨⟨0, 0⟩, ⟨100, 100⟩⟩ ⟨10, 10⟩ ⟨4, 4⟩
      16).items ≠ [] := by
    intro hnil
    rw [hnil] at hlen
    simp at hlen
  have hcrash := MSession.step_of_nonempty _ frameIdle1 hne
  refine ⟨hc, by simpa [CollectingGame.step] using hc, hlen, hcrash, ?_⟩
  simp [MouseGame.step, hcrash]

/-- Helper: a collecting-game step on an empty item collection only moves
and clamps the player and ticks (or fires) the completion timer. -/
theorem CSession.step_of_empty (s : CSession) (f : Frame) (h : s.items = []) :
    CSession.step s f =
      if s.timeout > 0 then
        some ⟨s.mapRect,
          ⟨clamp (movePlayer f.keys s.player.pos s.player.speed f.dt)
             (expandScalar s.mapRect (-s.player.radius)),
           s.player.radius, s.player.speed⟩,
          [], s.timeout - f.dt, s.counter⟩
      else none := by
  simp [CSession.step, h, collectItems]

/-- Helper: on an empty item collection the entry timeout of the step that
signals completion is `timeout - (sum of the dts consumed so far)`; the run
signals at index `m` exactly when that quantity first becomes non-positive. -/
theorem emptyCountdown (frames : List Frame) : ∀ (s : CSession) (m : ℕ),
    s.items = [] → stepsToComplete s frames = some m →
    s.timeout - sumDt (frames.take m) ≤ 0 ∧
    ∀ j, j < m → 0 < s.timeout - sumDt (frames.take j) := by
  induction frames with
  | nil =>
    intro s m _ hdone
    simp [stepsToComplete] at hdone
  | cons f fs ih =>
    intro s m hempty hdone
    rw [stepsToComplete, CSession.step_of_empty s f hempty] at hdone
    by_cases ht : s.timeout > 0
    · rw [if_pos ht] at hdone
      simp only [Option.map_eq_some'] at hdone
      obtain ⟨m1, hrec, rfl⟩ := hdone
      obtain ⟨hle, hpos⟩ := ih _ m1 rfl hrec
      simp only at hle hpos
      constructor
      · simpa [sumDt, sub_sub] using hle
      · intro j hj
        cases j with
        | zero => simpa [sumDt] using ht
        | succ j1 =>
          have := hpos j1 (by omega)
          simpa [sumDt, sub_sub] using this
    · rw [if_neg ht] at hdone
      obtain rfl : (0 : ℕ) = m := Option.some.inj hdone
      refine ⟨by simpa [sumDt] using le_of_not_lt ht, by omega⟩

/-- Claim C3: once a session's item collection has just become empty with
the full 1.0-second completion delay remaining, the run does not signal
completion until the accumulated `dt` reaches at least 1.0 second, and it
signals on the first step whose entry timeout `1 - (accumulated dt)` is
non-positive. -/
theorem session_completion_timing (s : CSession) (frames : List Frame) (m : ℕ)
    (hempty : s.items = []) (htimeout : s.timeout = 1)
    (hdone : stepsToComplete s frames = some m) :
    1 ≤ sumDt (frames.take m) ∧
    ∀ j, j < m → sumDt (frames.take j) < 1 := by
  obtain ⟨hle, hpos⟩ := emptyCountdown frames s m hempty hdone
  rw [htimeout] at hle hpos
  exact ⟨by linarith, fun j hj => by linarith [hpos j hj]⟩

/-- Claim C3 witness: an emptied session stepped with dt = 1 then dt = 0
signals completion on the second step (index 1). -/
theorem session_completion_timing_witness :
    (csWait.items = [] ∧ csWait.timeout = 1 ∧
     stepsToComplete csWait [frameIdle1, frameIdle0] = some 1) ∧
    (1 ≤ sumDt ([frameIdle1, frameIdle0].take 1) ∧
     ∀ j, j < 1 → sumDt ([frameIdle1, frameIdle0].take j) < 1) := by
  have h : stepsToComplete csWait [frameIdle1, frameIdle0] = some 1 := by
    norm_num [stepsToComplete, CSession.step, csWait, frameIdle1, frameIdle0,
      collectItems, movePlayer, clamp, expandScalar, expand, keysNone,
      Rect2.left, Rect2.right, Rect2.top, Rect2.bottom]
  exact ⟨⟨rfl, rfl, h⟩,
    session_completion_timing csWait [frameIdle1, frameIdle0] 1 rfl rfl h⟩

/-- Helper: the collection loop counts exactly the removed items and keeps
the survivors as a sublist (relative order preserved). -/
theorem collectItems_spec (p : Player) : ∀ l : List Item,
    (collectItems p l).1 + (collectItems p l).2.length = l.length ∧
    (collectItems p l).2.Sublist l := by
  intro l
  induction l with
  | nil => simp [collectItems]
  | cons it rest ih =>
    obtain ⟨hlen, hsub⟩ := ih
    by_cases hc : itemCollides p it
    · constructor
      · simp only [collectItems, hc, if_pos, List.length_cons]; omega
      · simpa [collectItems, hc] using hsub.cons it
    · constructor
      · simp only [collectItems, hc, if_neg, Bool.false_eq_true,
          ite_false, List.length_cons]; omega
      · simpa [collectItems, hc] using hsub.cons₂ it

/-- Helper: the item-placement loop produces exactly the requested number
of items. -/
theorem mkItems_length (rect : Rect2) (rad : ℚ) : ∀ (n : ℕ) (r : RandomState),
    (mkItems rect rad r n).1.length = n := by
  intro n
  induction n with
  | zero => intro r; simp [mkItems]
  | succ k ih => intro r; simp [mkItems, ih]

/-- Helper: a successful collecting-game step adds the number of removed
items to the counter, keeps survivors as a sublist, and conserves
`counter + remaining`. -/
theorem CSession.step_counts (s : CSession) (f : Frame) (s1 : CSession)
    (h : CSession.step s f = some s1) :
    s1.counter + s1.items.length = s.counter + s.items.length ∧
    s.counter ≤ s1.counter ∧
    s1.counter = s.counter + (s.items.length - s1.items.length) ∧
    s1.items.Sublist s.items := by
  have hspec := collectItems_spec
    ⟨clamp (movePlayer f.keys s.player.pos s.player.speed f.dt)
       (expandScalar s.mapRect (-s.player.radius)),
     s.player.radius, s.player.speed⟩ s.items
  simp only [CSession.step] at h
  split_ifs at h with h1 h2
  · obtain rfl := Option.some.inj h
    simp only
    obtain ⟨hlen, hsub⟩ := hspec
    refine ⟨by omega, by omega, by omega, hsub⟩
  · obtain rfl := Option.some.inj h
    simp only
    obtain ⟨hlen, hsub⟩ := hspec
    refine ⟨by omega, by omega, by omega, hsub⟩

/-- Helper: along any reachable trace of a collecting-game session started
with `numItems` items, `counter + remaining items = numItems`. -/
theorem CReach.counter_invariant (r : RandomState) (mapSize : Vec2) (numItems : ℕ)
    (s : CSession) (h : CReach (CSession.init r mapSize numItems) s) :
    s.counter + s.items.length = numItems := by
  induction h with
  | refl => simp [CSession.init, mkItems_length]
  | tail s2 f s3 _ hstep ih =>
    have := (CSession.step_counts s2 f s3 hstep).1
    omega

/-- Claim C10: in every reachable state of a collecting-game session
constructed with `numItems` items, the score counter plus the remaining
items equals `numItems`; each successful step raises the counter by exactly
the number of items removed in that step (so it never decreases) and keeps
the surviving items in relative order (a sublist). -/
theorem session_counter_invariant (r : RandomState) (mapSize : Vec2) (numItems : ℕ)
    (s : CSession) (f : Frame) (s1 : CSession)
    (hreach : CReach (CSession.init r mapSize numItems) s)
    (hstep : CSession.step s f = some s1) :
    s.counter + s.items.length = numItems ∧
    s1.counter + s1.items.length = numItems ∧
    s.counter ≤ s1.counter ∧
    s1.counter = s.counter + (s.items.length - s1.items.length) ∧
    s1.items.Sublist s.items := by
  have hinv := CReach.counter_invariant r mapSize numItems s hreach
  obtain ⟨hcons, hmono, hinc, hsub⟩ := CSession.step_counts s f s1 hstep
  exact ⟨hinv, by omega, hmono, hinc, hsub⟩

/-- Claim C10 witness: the one-item session built from the all-1/2 stream;
its single item sits at the map center on top of the player and is
collected by the first idle step. -/
theorem session_counter_invariant_witness :
    (CReach (CSession.init constHalfStream ⟨42, 24⟩ 1)
       (CSession.init constHalfStream ⟨42, 24⟩ 1) ∧
     CSession.step (CSession.init constHalfStream ⟨42, 24⟩ 1) frameIdle0 =
       some csAfterCollect) ∧
    ((CSession.init constHalfStream ⟨42, 24⟩ 1).counter +
       (CSession.init constHalfStream ⟨42, 24⟩ 1).items.length = 1 ∧
     csAfterCollect.counter + csAfterCollect.items.length = 1 ∧
     (CSession.init constHalfStream ⟨42, 24⟩ 1).counter ≤ csAfterCollect.counter ∧
     csAfterCollect.counter = (CSession.init constHalfStream ⟨42, 24⟩ 1).counter +
       ((CSession.init constHalfStream ⟨42, 24⟩ 1).items.length -
        csAfterCollect.items.length) ∧
     csAfterCollect.items.Sublist (CSession.init constHalfStream ⟨42, 24⟩ 1).items) := by
  have hstep : CSession.step (CSession.init constHalfStream ⟨42, 24⟩ 1) frameIdle0 =
      some csAfterCollect := by
    norm_num [CSession.step, CSession.init, csAfterCollect, frameIdle0, keysNone,
      mkItems, random_uniform, RandomState.uniform, RandomState.random,
      constHalfStream, collectItems, itemCollides, movePlayer, clamp,
      expandScalar, expand, Rect2.left, Rect2.right, Rect2.top, Rect2.bottom,
      Rect2.center]
  exact ⟨⟨CReach.refl, hstep⟩,
    session_counter_invariant constHalfStream ⟨42, 24⟩ 1
      (CSession.init constHalfStream ⟨42, 24⟩ 1) frameIdle0 csAfterCollect
      CReach.refl hstep⟩

/-- Claim C4 counterexample: the collecting game's item-collection test is
a Euclidean-distance test, not the claimed axis-aligned box test with
one-third half-extents. A player of radius 1 (full size (2, 2)) at the
origin and an item of radius 1/2 (full size (1, 1)) at (6/5, 0) are
collected by `collecting.Session.step` (distance 6/5 < 3/2), yet the
claimed box condition with half-extents (2/3, 2/3) and (1/3, 1/3) is
false (6/5 > 1), so the claimed equivalence fails at this input. -/
theorem collision_claim_counterexample :
    itemCollides ⟨⟨0, 0⟩, 1, 10⟩ ⟨⟨6/5, 0⟩, 1/2⟩ = true ∧
    mainCollects ⟨0, 0⟩ ⟨6/5, 0⟩ ⟨2, 2⟩ ⟨1, 1⟩ = false := by
  constructor
  · norm_num [itemCollides]
  · norm_num [mainCollects, overlap, abs_le]

/-- Claim C4 amended: the item-collection tests as the code actually has
them. The draft `__main__.play_game` uses `overlap` on boxes centred at
the entity positions with half-extents one third of the full sizes
(non-strict comparison); `collecting.Session.step` instead collects an
item iff the Euclidean distance between the centers is strictly below the
sum of the radii; and `mouse.Session.step` computes no comparison at all —
its `Rect.colliderect` call on `Rect2` arguments raises `TypeError`, so
any step with at least one item crashes. -/
theorem collision_tests_characterized (pp ip psz isz : Vec2) (cp : Player)
    (ci : Item) (ms : MSession) (f : Frame) (hms : ms.items ≠ []) :
    (mainCollects pp ip psz isz = true ↔
      |pp.x - ip.x| ≤ psz.x / 3 + isz.x / 3 ∧
      |pp.y - ip.y| ≤ psz.y / 3 + isz.y / 3) ∧
    (itemCollides cp ci = true ↔
      0 < cp.radius + ci.radius ∧
      (cp.pos.x - ci.pos.x) ^ 2 + (cp.pos.y - ci.pos.y) ^ 2 <
        (cp.radius + ci.radius) ^ 2) ∧
    MSession.step ms f = MStepResult.crashed := by
  refine ⟨?_, ?_, MSession.step_of_nonempty ms f hms⟩
  · simp [mainCollects, overlap]
  · simp [itemCollides]

/-- Claim C4 amended witness: a concrete one-item mouse session whose step
crashes, alongside the concrete box/distance configurations. -/
theorem collision_tests_characterized_witness :
    msOneItem.items ≠ [] ∧
    MSession.step msOneItem frameIdle1 = MStepResult.crashed :=
  ⟨by simp [msOneItem],
   (collision_tests_characterized ⟨0, 0⟩ ⟨6/5, 0⟩ ⟨2, 2⟩ ⟨1, 1⟩
     ⟨⟨0, 0⟩, 1, 10⟩ ⟨⟨6/5, 0⟩, 1/2⟩ msOneItem frameIdle1
     (by simp [msOneItem])).2.2⟩
